import Mathlib

/-!
# Verification of the MSF decoder core (`msf60_utils`)

Shallow embedding of `src/lib.rs` and `src/msf_helpers.rs` of the `msf60_utils`
crate.  The decoder state of the Rust struct `MSFUtils` is a Lean structure,
its methods become pure state transformers; calls into the external
`radio_datetime_utils` crate (out of scope per the specification) are either
modelled from the spec's interface description (`time_diff`, `get_parity`,
`get_bcd_value`, `increase_second`) or represented as an event trace plus
oracle parameters for the returned values (`RadioDateTimeUtils` accumulator).
Machine integers (`u32`, `u8`, `i8`) are embedded as `Nat`/`Int` with explicit
`% 2^32` where the code can wrap.
-/

/-- `u32` modulus, for wraparound-correct timestamp arithmetic. -/
def U32 : Nat := 4294967296

/-- Default upper limit for spike detection in microseconds (`SPIKE_LIMIT`). -/
def SPIKE_LIMIT : Nat := 30000

/-- Maximum time in microseconds for a bit to be considered 0 (`ACTIVE_0_LIMIT`). -/
def ACTIVE_0_LIMIT : Nat := 150000

/-- Maximum time in microseconds for bit A to be considered 1 (`ACTIVE_A_LIMIT`). -/
def ACTIVE_A_LIMIT : Nat := 250000

/-- Maximum time in microseconds for bits A and B to be considered 1 (`ACTIVE_AB_LIMIT`). -/
def ACTIVE_AB_LIMIT : Nat := 350000

/-- Maximum time in microseconds for a minute marker to be detected (`MINUTE_LIMIT`). -/
def MINUTE_LIMIT : Nat := 550000

/-- Signal is considered lost after this many microseconds (`PASSIVE_RUNAWAY`). -/
def PASSIVE_RUNAWAY : Nat := 1500000

/-- Modelled from the spec: `radio_datetime_utils::BIT_BUFFER_SIZE`, the capacity of
the bit buffers, is not part of this repository; the spec fixes it at 62 slots
("length = maximum minute length + 1 spare slot (so 62 slots, ...)"). -/
def BIT_BUFFER_SIZE : Nat := 62

/-- Modelled from the spec: `radio_datetime_helpers::time_diff` of the external
`radio_datetime_utils` crate; "duration arithmetic between any two timestamps
must use wraparound-correct subtraction", i.e. `(t - t0) mod 2^32`. -/
def time_diff (t0 t : Nat) : Nat := (t + U32 - t0 % U32) % U32

/-- Decoder state: the fields of the Rust struct `MSFUtils`.  The embedded
`radio_datetime: RadioDateTimeUtils` field (external accumulator) is not part
of the state; interactions with it are modelled as an event trace. -/
structure MSFUtils where
  first_minute : Bool
  new_minute : Bool
  past_new_minute : Bool
  new_second : Bool
  second : Nat
  bit_buffer_a : List (Option Bool)
  bit_buffer_b : List (Option Bool)
  parity_1 : Option Bool
  parity_2 : Option Bool
  parity_3 : Option Bool
  parity_4 : Option Bool
  dut1 : Option Int
  before_first_edge : Bool
  t0 : Nat
  old_t_diff : Nat
  spike_limit : Nat
deriving DecidableEq, Repr

/-- `MSFUtils::new()`. -/
def MSFUtils.new : MSFUtils where
  first_minute := true
  new_minute := false
  past_new_minute := false
  new_second := false
  second := 0
  bit_buffer_a := List.replicate BIT_BUFFER_SIZE none
  bit_buffer_b := List.replicate BIT_BUFFER_SIZE none
  parity_1 := none
  parity_2 := none
  parity_3 := none
  parity_4 := none
  dut1 := none
  before_first_edge := true
  t0 := 0
  old_t_diff := 0
  spike_limit := SPIKE_LIMIT

/-- The fixed end-of-minute marker pattern `0111_1110` (`MARKER` in `search_eom_marker`). -/
def MARKER : List Bool := [false, true, true, true, true, true, true, false]

/-- Write both channel bits of slot `i` (the two buffer assignments of `handle_new_edge`). -/
def write_pair (s : MSFUtils) (i : Nat) (a b : Option Bool) : MSFUtils :=
  { s with bit_buffer_a := s.bit_buffer_a.set i a, bit_buffer_b := s.bit_buffer_b.set i b }

/-- The stored bit pair of slot `i` (reading both buffers at the same index). -/
def pairAt (s : MSFUtils) (i : Nat) : Option Bool × Option Bool :=
  (s.bit_buffer_a.getD i none, s.bit_buffer_b.getD i none)

/-- `MSFUtils::search_eom_marker`: whether the marker pattern occupies
`bit_buffer_a[second - 7 + predict ..= second]` (the Rust loop over that slice
with an early `false` return is the bounded universal below). -/
def search_eom_marker (s : MSFUtils) (predict : Bool) : Bool :=
  if s.second < 7 then false
  else
    let lo := s.second - 7 + (if predict then 1 else 0)
    decide (∀ i, i < s.second + 1 - lo →
      s.bit_buffer_a.getD (lo + i) none = some (MARKER.getD i false))

/-- `MSFUtils::end_of_minute_marker_present`. -/
def end_of_minute_marker_present (s : MSFUtils) : Bool :=
  search_eom_marker s false

/-- `MSFUtils::get_minute_length`. -/
def get_minute_length (s : MSFUtils) : Nat :=
  if (58 ≤ s.second ∧ s.second ≤ 60) ∧ search_eom_marker s false then
    s.second + 1
  else if s.second = 59 ∧ search_eom_marker s true then 61
  else 60

/-- `MSFUtils::handle_new_edge(is_low_edge, t)`. -/
def handle_new_edge (s : MSFUtils) (is_low_edge : Bool) (t : Nat) : MSFUtils :=
  if s.before_first_edge then
    { s with before_first_edge := false, t0 := t }
  else
    let t_diff := time_diff s.t0 t
    if t_diff < s.spike_limit then
      -- shift t0 to deal with a train of spikes adding up to more than spike_limit
      { s with t0 := (s.t0 + t_diff) % U32 }
    else
      let s1 := { s with new_minute := false, past_new_minute := false, t0 := t }
      let s2 :=
        if is_low_edge then
          let sl := { s1 with new_second := false }
          if t_diff < ACTIVE_0_LIMIT then
            let sw :=
              if 0 < sl.old_t_diff ∧ sl.old_t_diff < ACTIVE_0_LIMIT then
                write_pair sl sl.second (some false) (some true)
              else if 1000000 - MINUTE_LIMIT < sl.old_t_diff then
                write_pair sl sl.second (some false) (some false)
              else sl
            { sw with new_minute := end_of_minute_marker_present sw }
          else if t_diff < ACTIVE_A_LIMIT ∧ 1000000 - ACTIVE_AB_LIMIT < sl.old_t_diff then
            write_pair sl sl.second (some true) (some false)
          else if t_diff < ACTIVE_AB_LIMIT ∧ 1000000 - ACTIVE_AB_LIMIT < sl.old_t_diff then
            write_pair sl sl.second (some true) (some true)
          else if t_diff < MINUTE_LIMIT ∧ 1000000 - ACTIVE_AB_LIMIT < sl.old_t_diff then
            write_pair { sl with past_new_minute := true, second := 0 } 0
              (some true) (some true)
          else
            -- active runaway or first low edge
            write_pair sl sl.second none none
        else if t_diff < PASSIVE_RUNAWAY then
          { s1 with new_second := decide (1000000 - MINUTE_LIMIT < t_diff) }
        else
          write_pair s1 s1.second none none
      { s2 with old_t_diff := t_diff }

/-- The loop of `msf_helpers::get_unary_value`: running sum and previous bit. -/
def unaryGo : List (Option Bool) → Int → Option Bool → Option Int
  | [], sum, _ => some sum
  | none :: _, _, _ => none
  | some b :: rest, sum, old =>
    if b = true ∧ old = some false then none
    else unaryGo rest (sum + if b then 1 else 0) (some b)

/-- `msf_helpers::get_unary_value(bit_buffer, start, stop)`: decode the unary value
of the slice `bit_buffer[start..=stop]`; a 0 bit cannot be followed by a 1 bit. -/
def get_unary_value (bit_buffer : List (Option Bool)) (start stop : Nat) : Option Int :=
  unaryGo ((bit_buffer.drop start).take (stop + 1 - start)) 0 none

/-- The spec's description of unary decoding, stated for the refinement of
`get_unary_value`: the count of `1` bits in the range, unknown if any bit is
Unknown or any `1` bit follows (anywhere after) a `0` bit. -/
def unary_spec (l : List (Option Bool)) : Option Int :=
  if (∀ x ∈ l, x.isSome) ∧ l.Pairwise (fun a b => ¬(a = some false ∧ b = some true)) then
    some (l.count (some true))
  else none

/-- XOR of the bit range `buf[start .. start + k)`, unknown on any Unknown bit. -/
def parityGo (buf : List (Option Bool)) (start : Nat) : Nat → Option Bool
  | 0 => some false
  | k + 1 =>
    match parityGo buf start k, buf.getD (start + k) none with
    | some v, some b => some (xor v b)
    | _, _ => none

/-- Modelled from the spec: `radio_datetime_helpers::get_parity` of the external
`radio_datetime_utils` crate; "compute even/odd parity (XOR of a bit range) over a
span of channel-A bits and compare against a designated channel-B parity bit;
produce Unknown if any input bit is Unknown, else Ok/Bad". -/
def get_parity (buf : List (Option Bool)) (start stop : Nat) (pbit : Option Bool) :
    Option Bool :=
  match pbit, parityGo buf start (stop + 1 - start) with
  | some pb, some v => some (xor v pb)
  | _, _ => none

/-- BCD weight of the `k`-th bit counted from the least significant end. -/
def bcdWeight (k : Nat) : Nat := [1, 2, 4, 8, 10, 20, 40, 80].getD k 0

/-- Accumulate the `k` least significant BCD bits, read downwards from `start`. -/
def bcdGo (buf : List (Option Bool)) (start : Nat) : Nat → Option Nat
  | 0 => some 0
  | k + 1 =>
    match bcdGo buf start k, buf.getD (start - k) none with
    | some v, some b => some (v + if b then bcdWeight k else 0)
    | _, _ => none

/-- Modelled from the spec: `radio_datetime_helpers::get_bcd_value` of the external
`radio_datetime_utils` crate; "decode two BCD nibbles from a channel-A bit range
into an integer; propagate Unknown (absent) if any contributing bit is Unknown".
The range is read MSB-first from `stop` to `start` (the least significant bit
sits at index `start`, as in the decoder's call sites). -/
def get_bcd_value (buf : List (Option Bool)) (start stop : Nat) : Option Nat :=
  bcdGo buf start (start + 1 - stop)

/-- One call into the external `RadioDateTimeUtils` accumulator, recorded as an
event; `decode_time` produces the trace of such calls in order. -/
inductive AccEvent where
  | clearJumps : AccEvent
  | addMinute : AccEvent
  | setYear : Option Nat → Bool → Bool → AccEvent
  | setMonth : Option Nat → Bool → Bool → AccEvent
  | setWeekday : Option Nat → Bool → Bool → AccEvent
  | setDay : Option Nat → Bool → Bool → AccEvent
  | setHour : Option Nat → Bool → Bool → AccEvent
  | setMinuteField : Option Nat → Bool → Bool → AccEvent
  | setDst : Option Bool → Option Bool → Bool → AccEvent
  | bumpMinutesRunning : AccEvent
deriving DecidableEq, Repr

/-- The leap-second bit offset of `decode_time`: `match 60.cmp(&minute_length)`. -/
def decodeOffsetOf (s : MSFUtils) : Int :=
  let ml := get_minute_length s
  if 60 < ml then 1 else if ml < 60 then -1 else 0

/-- A nominal frame position shifted by the leap-second offset (`(n + offset) as usize`). -/
def fpos (off : Int) (n : Nat) : Nat := (n + off).toNat

/-- The DUT1 computation of `decode_time` over channel B, with the given stop
index of the negative-count range. -/
def decodeDut1 (bb : List (Option Bool)) (stop : Nat) : Option Int :=
  match get_unary_value bb 1 8, get_unary_value bb 9 stop with
  | some dut1p, some dut1n =>
    if dut1p * dut1n = 0 then some (dut1p - dut1n) else none
  | _, _ => none

/-- Year parity as computed by `decode_time` (channel A 17..24, parity bit B 54). -/
def parity1Of (s : MSFUtils) : Option Bool :=
  let off := decodeOffsetOf s
  get_parity s.bit_buffer_a (fpos off 17) (fpos off 24) (s.bit_buffer_b.getD (fpos off 54) none)

/-- Month/day parity as computed by `decode_time` (channel A 25..35, parity bit B 55). -/
def parity2Of (s : MSFUtils) : Option Bool :=
  let off := decodeOffsetOf s
  get_parity s.bit_buffer_a (fpos off 25) (fpos off 35) (s.bit_buffer_b.getD (fpos off 55) none)

/-- Weekday parity as computed by `decode_time` (channel A 36..38, parity bit B 56). -/
def parity3Of (s : MSFUtils) : Option Bool :=
  let off := decodeOffsetOf s
  get_parity s.bit_buffer_a (fpos off 36) (fpos off 38) (s.bit_buffer_b.getD (fpos off 56) none)

/-- Hour/minute parity as computed by `decode_time` (channel A 39..51, parity bit B 57). -/
def parity4Of (s : MSFUtils) : Option Bool :=
  let off := decodeOffsetOf s
  get_parity s.bit_buffer_a (fpos off 39) (fpos off 51) (s.bit_buffer_b.getD (fpos off 57) none)

/-- DUT1 as computed by `decode_time`: bit 16 is dropped from the negative-count
range in case of a negative leap second. -/
def dut1Of (s : MSFUtils) : Option Int :=
  decodeDut1 s.bit_buffer_b (if decodeOffsetOf s = -1 then 15 else 16)

/-- The global strict gate `strict_ok` of `decode_time`. -/
def strictOkOf (s : MSFUtils) : Bool :=
  (parity1Of s == some true) && (parity2Of s == some true) &&
  (parity3Of s == some true) && (parity4Of s == some true) &&
  (dut1Of s).isSome && end_of_minute_marker_present s

/-- Year value pushed by `decode_time` (BCD over channel A 17..24). -/
def yearValueOf (s : MSFUtils) : Option Nat :=
  let off := decodeOffsetOf s
  get_bcd_value s.bit_buffer_a (fpos off 24) (fpos off 17)

/-- Month value pushed by `decode_time` (BCD over channel A 25..29). -/
def monthValueOf (s : MSFUtils) : Option Nat :=
  let off := decodeOffsetOf s
  get_bcd_value s.bit_buffer_a (fpos off 29) (fpos off 25)

/-- Weekday value pushed by `decode_time` (BCD over channel A 36..38). -/
def weekdayValueOf (s : MSFUtils) : Option Nat :=
  let off := decodeOffsetOf s
  get_bcd_value s.bit_buffer_a (fpos off 38) (fpos off 36)

/-- Day value pushed by `decode_time` (BCD over channel A 30..35). -/
def dayValueOf (s : MSFUtils) : Option Nat :=
  let off := decodeOffsetOf s
  get_bcd_value s.bit_buffer_a (fpos off 35) (fpos off 30)

/-- Hour value pushed by `decode_time` (BCD over channel A 39..44). -/
def hourValueOf (s : MSFUtils) : Option Nat :=
  let off := decodeOffsetOf s
  get_bcd_value s.bit_buffer_a (fpos off 44) (fpos off 39)

/-- Minute value pushed by `decode_time` (BCD over channel A 45..51). -/
def minuteValueOf (s : MSFUtils) : Option Nat :=
  let off := decodeOffsetOf s
  get_bcd_value s.bit_buffer_a (fpos off 51) (fpos off 45)

/-- `MSFUtils::decode_time(strict_checks)`.  The two booleans returned by the
external accumulator (`add_minute()` and `is_valid()`) are oracle parameters;
the calls made into the accumulator are returned as an event trace. -/
def decode_time (s : MSFUtils) (strict_checks add_minute_result is_valid_result : Bool) :
    MSFUtils × List AccEvent :=
  let minute_length := get_minute_length s
  let added_minute := if s.first_minute then false else add_minute_result
  let pre : List AccEvent := .clearJumps :: (if s.first_minute then [] else [.addMinute])
  if s.second + 1 = minute_length then
    let p1 := parity1Of s
    let p2 := parity2Of s
    let p3 := parity3Of s
    let p4 := parity4Of s
    let du := dut1Of s
    let strict_ok := strictOkOf s
    let jump := added_minute && !s.first_minute
    let fY := if strict_checks then strict_ok else p1 == some true
    let fM := if strict_checks then strict_ok else p2 == some true
    let fW := if strict_checks then strict_ok else p3 == some true
    let fD :=
      if strict_checks then strict_ok
      else (p1 == some true) && (p2 == some true) && (p3 == some true)
    let fH := if strict_checks then strict_ok else p4 == some true
    let fMin := if strict_checks then strict_ok else p4 == some true
    let off := decodeOffsetOf s
    let fm :=
      if (if strict_checks then strict_ok else du.isSome) && is_valid_result then false
      else s.first_minute
    ({ s with parity_1 := p1, parity_2 := p2, parity_3 := p3, parity_4 := p4,
              dut1 := du, first_minute := fm },
     pre ++
      [.setYear (yearValueOf s) fY jump,
       .setMonth (monthValueOf s) fM jump,
       .setWeekday (weekdayValueOf s) fW jump,
       .setDay (dayValueOf s) fD jump,
       .setHour (hourValueOf s) fH jump,
       .setMinuteField (minuteValueOf s) fMin jump,
       .setDst (s.bit_buffer_b.getD (fpos off 58) none)
         (s.bit_buffer_b.getD (fpos off 53) none) jump,
       .bumpMinutesRunning])
  else (s, pre)

/-- Events that belong to field decoding (everything except the bookkeeping
`clear_jumps` and the clock advance `add_minute`). -/
def isFieldEvent : AccEvent → Bool
  | .clearJumps => false
  | .addMinute => false
  | _ => true

/-- The calendar values pushed to the accumulator, in call order
(year, month, weekday, day, hour, minute). -/
def pushedValues (evts : List AccEvent) : List (Option Nat) :=
  evts.filterMap fun e =>
    match e with
    | .setYear v _ _ => some v
    | .setMonth v _ _ => some v
    | .setWeekday v _ _ => some v
    | .setDay v _ _ => some v
    | .setHour v _ _ => some v
    | .setMinuteField v _ _ => some v
    | _ => none

/-- The validity flag of the pushed year, if a year was pushed. -/
def yearFlag (evts : List AccEvent) : Option Bool :=
  (evts.filterMap fun e => match e with | .setYear _ f _ => some f | _ => none).head?

/-- The validity flag of the pushed month, if a month was pushed. -/
def monthFlag (evts : List AccEvent) : Option Bool :=
  (evts.filterMap fun e => match e with | .setMonth _ f _ => some f | _ => none).head?

/-- The validity flag of the pushed weekday, if a weekday was pushed. -/
def weekdayFlag (evts : List AccEvent) : Option Bool :=
  (evts.filterMap fun e => match e with | .setWeekday _ f _ => some f | _ => none).head?

/-- The validity flag of the pushed day, if a day was pushed. -/
def dayFlag (evts : List AccEvent) : Option Bool :=
  (evts.filterMap fun e => match e with | .setDay _ f _ => some f | _ => none).head?

/-- The validity flag of the pushed hour, if an hour was pushed. -/
def hourFlag (evts : List AccEvent) : Option Bool :=
  (evts.filterMap fun e => match e with | .setHour _ f _ => some f | _ => none).head?

/-- The validity flag of the pushed minute, if a minute was pushed. -/
def minuteFlag (evts : List AccEvent) : Option Bool :=
  (evts.filterMap fun e => match e with | .setMinuteField _ f _ => some f | _ => none).head?

/-- Modelled from the spec: `RadioDateTimeUtils::increase_second` of the external
`radio_datetime_utils` crate; "if new_minute is set, ... reset second to 0;
otherwise increment, and defensively wrap to 0 if the counter would exceed
minute_length + 1 or exceed buffer capacity". -/
def increase_second_helper (second : Nat) (new_minute : Bool) (minute_length : Nat) :
    Nat × Bool :=
  if new_minute then (0, true)
  else if second + 1 ≤ minute_length + 1 ∧ second + 1 < BIT_BUFFER_SIZE then
    (second + 1, true)
  else (0, false)

/-- `MSFUtils::increase_second()`. -/
def increase_second (s : MSFUtils) : MSFUtils × Bool :=
  let r := increase_second_helper s.second s.new_minute (get_minute_length s)
  ({ s with second := r.1 }, r.2)

/-- `MSFUtils::set_current_bit_a(value)`. -/
def set_current_bit_a (s : MSFUtils) (value : Option Bool) : MSFUtils :=
  { s with bit_buffer_a := s.bit_buffer_a.set s.second value,
           new_minute := false, past_new_minute := false }

/-- `MSFUtils::set_current_bit_b(value)`. -/
def set_current_bit_b (s : MSFUtils) (value : Option Bool) : MSFUtils :=
  { s with bit_buffer_b := s.bit_buffer_b.set s.second value,
           new_minute := false, past_new_minute := false }

/-- `MSFUtils::force_new_minute()`. -/
def force_new_minute (s : MSFUtils) : MSFUtils :=
  { s with new_minute := true, past_new_minute := false }

/-- `MSFUtils::force_past_new_minute()`. -/
def force_past_new_minute (s : MSFUtils) : MSFUtils :=
  { s with new_minute := false, past_new_minute := true, second := 0,
           bit_buffer_a := s.bit_buffer_a.set 0 (some true),
           bit_buffer_b := s.bit_buffer_b.set 0 (some true) }

/-- `MSFUtils::set_spike_limit(value)`. -/
def set_spike_limit (s : MSFUtils) (value : Nat) : MSFUtils :=
  if value < ACTIVE_0_LIMIT then { s with spike_limit := value } else s

/-- One mutating operation of the public decoder interface. -/
inductive MSFOp where
  | handleNewEdge : Bool → Nat → MSFOp
  | decodeTime : Bool → Bool → Bool → MSFOp
  | increaseSecond : MSFOp
  | addMinuteOp : MSFOp
  | setCurrentBitA : Option Bool → MSFOp
  | setCurrentBitB : Option Bool → MSFOp
  | forceNewMinute : MSFOp
  | forcePastNewMinute : MSFOp
  | setSpikeLimitOp : Nat → MSFOp
deriving DecidableEq, Repr

/-- Apply one decoder operation to the state (`MSFUtils::add_minute` only
touches the external accumulator, so it leaves the decoder state unchanged). -/
def applyOp (s : MSFUtils) : MSFOp → MSFUtils
  | .handleNewEdge low t => handle_new_edge s low t
  | .decodeTime strict amr ivr => (decode_time s strict amr ivr).1
  | .increaseSecond => (increase_second s).1
  | .addMinuteOp => s
  | .setCurrentBitA v => set_current_bit_a s v
  | .setCurrentBitB v => set_current_bit_b s v
  | .forceNewMinute => force_new_minute s
  | .forcePastNewMinute => force_past_new_minute s
  | .setSpikeLimitOp v => set_spike_limit s v

/-- The nominal channel-A test frame of the repository's test suite
(2022-10-23, Saturday, 14:58, marker at 52..59). -/
def TEST_A : List Bool :=
  [true,
   false, false, false, false, false, false, false, false,
   false, false, false, false, false, false, false, false,
   false, false, true, false, false, false, true, false,
   true, false, false, false, false,
   true, false, false, false, true, true,
   true, true, false,
   false, true, false, true, false, false,
   true, false, true, true, false, false, false,
   false, true, true, true, true, true, true, false]

/-- The nominal channel-B test frame of the repository's test suite
(DUT1 = −2, summer time active, parities matching `TEST_A`). -/
def TEST_B : List Bool :=
  [true,
   false, false, false, false, false, false, false, false,
   true, true, false, false, false, false, false, false,
   false, false, false, false, false, false, false, false,
   false, false, false, false, false, false, false, false,
   false, false, false, false, false, false, false, false,
   false, false, false, false, false, false, false, false,
   false, false, false, false,
   false, true, true, true, false, true, false]

/-- A decoder state holding the full nominal test frame at second 59. -/
def nomState : MSFUtils :=
  { MSFUtils.new with
      second := 59
      bit_buffer_a := TEST_A.map some ++ [none, none]
      bit_buffer_b := TEST_B.map some ++ [none, none] }

/-- A decoder state whose minute-marker flags are raised and whose next edge is a
spike (used against the claim that every call clears the flags). -/
def c9state : MSFUtils :=
  { MSFUtils.new with before_first_edge := false, new_minute := true, past_new_minute := true }

/-- A decoder state one passive interval (818743 us) after an accepted edge,
taken from the repository's `(1,1)`-bit test data. -/
def c1state : MSFUtils :=
  { MSFUtils.new with before_first_edge := false, t0 := 415908781, old_t_diff := 818743 }

/-- A decoder state at second 59 whose channel A holds the first seven marker
bits at positions 53..59 and a `1` at position 60 (so the full 8-bit pattern
does not occupy the window ending one second ahead). -/
def c4state : MSFUtils :=
  { MSFUtils.new with
      second := 59
      bit_buffer_a := List.replicate 53 none ++
        [some false, some true, some true, some true, some true, some true, some true,
         some true, none] }


/-- A negative-leap-second variant of the nominal test frame: bit 16 deleted,
decoded at second counter 58. -/
def c7neg : MSFUtils :=
  { MSFUtils.new with
      second := 58
      bit_buffer_a := (TEST_A.take 16 ++ TEST_A.drop 17).map some ++ [none, none, none]
      bit_buffer_b := (TEST_B.take 16 ++ TEST_B.drop 17).map some ++ [none, none, none] }

/-- A positive-leap-second variant of the nominal test frame: an Unknown bit
inserted at position 17, decoded at second counter 60. -/
def c7pos : MSFUtils :=
  { MSFUtils.new with
      second := 60
      bit_buffer_a := (TEST_A.take 17).map some ++ [none] ++ (TEST_A.drop 17).map some ++
        [none]
      bit_buffer_b := (TEST_B.take 17).map some ++ [none] ++ (TEST_B.drop 17).map some ++
        [none] }

/-! ## Sanity checks against the repository's test expectations -/

example : get_minute_length nomState = 60 := by decide
example : end_of_minute_marker_present nomState = true := by decide
example : parity1Of nomState = some true := by decide
example : parity2Of nomState = some true := by decide
example : parity3Of nomState = some true := by decide
example : parity4Of nomState = some true := by decide
example : yearValueOf nomState = some 22 := by decide
example : monthValueOf nomState = some 10 := by decide
example : dayValueOf nomState = some 23 := by decide
example : weekdayValueOf nomState = some 6 := by decide
example : hourValueOf nomState = some 14 := by decide
example : minuteValueOf nomState = some 58 := by decide
example : dut1Of nomState = some (-2) := by decide
example : strictOkOf nomState = true := by decide
example : ((decode_time nomState false true true).1).first_minute = false := by decide


/-! ## Helper lemmas -/

theorem getD_set_self {α : Type} (l : List α) (i : Nat) (a d : α) (h : i < l.length) :
    (l.set i a).getD i d = a := by
  induction l generalizing i with
  | nil => simp at h
  | cons x xs ih =>
    cases i with
    | zero => rfl
    | succ n => simpa using ih n (by simpa using h)

theorem eom_congr (s s' : MSFUtils) (h1 : s.second = s'.second)
    (h2 : s.bit_buffer_a = s'.bit_buffer_a) :
    end_of_minute_marker_present s = end_of_minute_marker_present s' := by
  unfold end_of_minute_marker_present search_eom_marker
  rw [h1, h2]

/-! ## Claim C9 -/

/-- Claim C9 (counterexample): the claim says `handle_new_edge` clears the
`new_minute` and `past_new_minute` flags at the start of every call, so after a
call in which no minute marker was recognized both would read false.  On a
spike edge (interval below the spike limit) the code returns early without
clearing: both flags survive the call set to `true`. -/
theorem claim_C9_counterexample :
    time_diff c9state.t0 10 < c9state.spike_limit ∧
    (handle_new_edge c9state false 10).new_minute = true ∧
    (handle_new_edge c9state false 10).past_new_minute = true := by decide

/-- Claim C9 (amended): the flags are cleared at the start of every call that
passes the first-edge and spike checks, and only the marker branches of that
call re-set them — so after such a call without marker recognition both read
false; first-edge and spike calls leave the flags untouched. -/
theorem claim_C9 (s : MSFUtils) (low : Bool) (t : Nat) :
    (s.before_first_edge = true →
      (handle_new_edge s low t).new_minute = s.new_minute ∧
      (handle_new_edge s low t).past_new_minute = s.past_new_minute) ∧
    (s.before_first_edge = false → time_diff s.t0 t < s.spike_limit →
      (handle_new_edge s low t).new_minute = s.new_minute ∧
      (handle_new_edge s low t).past_new_minute = s.past_new_minute) ∧
    (s.before_first_edge = false → s.spike_limit ≤ time_diff s.t0 t →
      (handle_new_edge s low t).new_minute =
        (low && decide (time_diff s.t0 t < ACTIVE_0_LIMIT) &&
          end_of_minute_marker_present (handle_new_edge s low t)) ∧
      (handle_new_edge s low t).past_new_minute =
        (low && decide (ACTIVE_AB_LIMIT ≤ time_diff s.t0 t) &&
          decide (time_diff s.t0 t < MINUTE_LIMIT) &&
          decide (1000000 - ACTIVE_AB_LIMIT < s.old_t_diff))) := by
  refine ⟨fun h => ?_, fun h1 h2 => ?_, fun h1 h2 => ?_⟩
  · simp [handle_new_edge, h]
  · simp [handle_new_edge, h1, h2]
  · have hns := Nat.not_lt.mpr h2
    simp only [handle_new_edge, h1, Bool.false_eq_true, if_false, hns, if_neg]
    split_ifs with hlow hc1 hc2 hc3 hc4 hc5 hc6 <;>
      simp_all [write_pair, end_of_minute_marker_present, search_eom_marker,
        ACTIVE_0_LIMIT, ACTIVE_A_LIMIT, ACTIVE_AB_LIMIT, MINUTE_LIMIT] <;> omega


/-- Claim C9 witness: the amended flag characterization instantiated at a
concrete accepted falling edge that recognizes no marker: both flags read
false afterwards. -/
theorem claim_C9_witness :
    (handle_new_edge c1state true 416194383).new_minute =
      (true && decide (time_diff c1state.t0 416194383 < ACTIVE_0_LIMIT) &&
        end_of_minute_marker_present (handle_new_edge c1state true 416194383)) ∧
    (handle_new_edge c1state true 416194383).past_new_minute =
      (true && decide (ACTIVE_AB_LIMIT ≤ time_diff c1state.t0 416194383) &&
        decide (time_diff c1state.t0 416194383 < MINUTE_LIMIT) &&
        decide (1000000 - ACTIVE_AB_LIMIT < c1state.old_t_diff)) :=
  (claim_C9 c1state true 416194383).2.2 (by decide) (by decide)

/-! ## Claim C8 -/

theorem spike_step (s : MSFUtils) (low : Bool) (t : Nat)
    (hfe : s.before_first_edge = false) (ht : t < U32) (ht0 : s.t0 < U32)
    (hsp : time_diff s.t0 t < s.spike_limit) :
    handle_new_edge s low t = { s with t0 := t } := by
  simp only [handle_new_edge, hfe, Bool.false_eq_true, if_false, hsp, if_true, if_pos]
  have : (s.t0 + time_diff s.t0 t) % U32 = t := by
    simp only [time_diff, U32] at *
    omega
  rw [this]

/-- Claim C8: an edge whose mod-2^32 distance to the reference instant is below
the spike limit is treated as noise: `t0` is advanced by that distance and no
other state changes (no bit classified); consequently a whole train of
sub-limit spikes collapses to a reference-instant shift only, so it is merged
into a single subsequently classified interval rather than several. -/
theorem claim_C8 :
    (∀ (s : MSFUtils) (low : Bool) (t : Nat),
      s.before_first_edge = false → time_diff s.t0 t < s.spike_limit →
      handle_new_edge s low t = { s with t0 := (s.t0 + time_diff s.t0 t) % U32 }) ∧
    (∀ (s : MSFUtils) (low : Bool) (ts : List Nat),
      s.before_first_edge = false → s.t0 < U32 →
      List.Chain (fun a b => time_diff a b < s.spike_limit ∧ b < U32) s.t0 ts →
      List.foldl (fun st t => handle_new_edge st low t) s ts =
        { s with t0 := ts.getLastD s.t0 }) := by
  constructor
  · intro s low t hfe hsp
    simp only [handle_new_edge, hfe, Bool.false_eq_true, if_false, hsp, if_true, if_pos]
  · intro s low ts
    induction ts generalizing s with
    | nil => intro _ _ _; rfl
    | cons t rest ih =>
      intro hfe ht0 hch
      cases hch with
      | cons hr hch' =>
        have hstep : handle_new_edge s low t = { s with t0 := t } :=
          spike_step s low t hfe hr.2 ht0 hr.1
        simp only [List.foldl_cons, hstep, List.getLastD_cons]
        exact ih { s with t0 := t } hfe hr.2 hch'

/-- Claim C8, witness: a concrete spike and a concrete two-spike train. -/
theorem claim_C8_witness :
    handle_new_edge c9state false 10 =
      { c9state with t0 := (c9state.t0 + time_diff c9state.t0 10) % U32 } ∧
    List.foldl (fun st t => handle_new_edge st false t) c9state [10, 20] =
      { c9state with t0 := 20 } := by
  refine ⟨claim_C8.1 c9state false 10 (by decide) (by decide),
          claim_C8.2 c9state false [10, 20] (by decide) (by decide) ?_⟩
  refine List.Chain.cons (by decide) (List.Chain.cons (by decide) List.Chain.nil)

/-! ## Claim C3 -/

/-- Claim C3 (counterexample): the claim says that whenever the end-of-minute
marker is present ending exactly at the current second the minute is short by
one (length 59, the current second index).  With the marker at 52..59 and the
second counter at 59 — the ordinary end of a nominal minute — the marker ends
exactly at the current second, yet `get_minute_length` returns 60, not 59. -/
theorem claim_C3_counterexample :
    nomState.second = 59 ∧ search_eom_marker nomState false = true ∧
    get_minute_length nomState = 60 := by decide

/-- Claim C3 (amended): `get_minute_length` always returns a value in
{59, 60, 61} and is a pure function of the second counter and channel-A buffer
(so repeated calls on an unchanged buffer agree); when the second counter lies
in 58..60 and the marker ends at the current second, the length is the current
second counter plus one (59 only in the negative-leap case second = 58); when
the counter is 59 and the marker is seen only with one-second look-ahead, the
length is 61; otherwise it is the nominal 60. -/
theorem claim_C3 (s : MSFUtils) :
    (get_minute_length s = 59 ∨ get_minute_length s = 60 ∨ get_minute_length s = 61) ∧
    (∀ s' : MSFUtils, s.second = s'.second → s.bit_buffer_a = s'.bit_buffer_a →
      get_minute_length s = get_minute_length s') ∧
    (58 ≤ s.second → s.second ≤ 60 → search_eom_marker s false = true →
      get_minute_length s = s.second + 1) ∧
    (s.second = 59 → search_eom_marker s false = false → search_eom_marker s true = true →
      get_minute_length s = 61) ∧
    (¬(58 ≤ s.second ∧ s.second ≤ 60 ∧ search_eom_marker s false = true) →
      ¬(s.second = 59 ∧ search_eom_marker s true = true) →
      get_minute_length s = 60) := by
  have hcongr : ∀ s' : MSFUtils, s.second = s'.second → s.bit_buffer_a = s'.bit_buffer_a →
      get_minute_length s = get_minute_length s' := by
    intro s' h1 h2
    unfold get_minute_length search_eom_marker
    rw [h1, h2]
  refine ⟨?_, hcongr, ?_, ?_, ?_⟩
  · unfold get_minute_length
    split_ifs with h1 h2 <;> omega
  · intro h1 h2 h3
    unfold get_minute_length
    rw [if_pos ⟨⟨h1, h2⟩, h3⟩]
  · intro h1 h2 h3
    unfold get_minute_length
    rw [if_neg (by simp [h2]), if_pos ⟨h1, h3⟩]
  · intro h1 h2
    unfold get_minute_length
    rw [if_neg ?_, if_neg ?_]
    · intro hc
      exact h2 ⟨hc.1, hc.2⟩
    · intro hc
      exact h1 ⟨hc.1.1, hc.1.2, hc.2⟩

/-- Claim C3 witness: the amended statement evaluated on the nominal test state. -/
theorem claim_C3_witness :
    get_minute_length nomState = nomState.second + 1 ∧ get_minute_length nomState = 60 :=
  ⟨(claim_C3 nomState).2.2.1 (by decide) (by decide) (by decide), by decide⟩

/-! ## Claim C4 -/

/-- Claim C4 (counterexample): the claim says the look-ahead variant returns
true exactly when the pattern `01111110` occupies the 8 bits ending one second
ahead.  The code only compares the first seven pattern bits (the final `0`
one second ahead has not arrived and is never examined): here the bit at
position 60 is `1`, contradicting the pattern's final `0`, yet
`search_eom_marker` with look-ahead returns true. -/
theorem claim_C4_counterexample :
    search_eom_marker c4state true = true ∧
    c4state.second = 59 ∧
    c4state.bit_buffer_a.getD 60 none = some true ∧
    some true ≠ some (MARKER.getD 7 false) := by decide

/-- Claim C4 (amended): without look-ahead the test is true exactly when the
full pattern `01111110` occupies the 8 channel-A bits ending at the current
second; with look-ahead it is true exactly when the first seven pattern bits
occupy the 7 bits ending at the current second (the final `0` bit one second
ahead is not examined); fewer than 8 accumulated seconds give false; on the
concrete frame with the pattern at 52..59 and second 59 the plain test is true
and corrupting any one of those bits to Unknown makes it false. -/
theorem claim_C4 (s : MSFUtils) :
    (search_eom_marker s false = true ↔
      7 ≤ s.second ∧ ∀ i, i < 8 →
        s.bit_buffer_a.getD (s.second - 7 + i) none = some (MARKER.getD i false)) ∧
    (search_eom_marker s true = true ↔
      7 ≤ s.second ∧ ∀ i, i < 7 →
        s.bit_buffer_a.getD (s.second - 6 + i) none = some (MARKER.getD i false)) ∧
    search_eom_marker nomState false = true ∧
    (∀ j, j < 60 → 52 ≤ j →
      search_eom_marker
        { nomState with bit_buffer_a := nomState.bit_buffer_a.set j none } false = false) := by
  refine ⟨?_, ?_, by decide, by decide⟩
  · by_cases h7 : s.second < 7
    · simp only [search_eom_marker, if_pos h7, Bool.false_eq_true, false_iff, not_and]
      intro h
      omega
    · simp only [search_eom_marker, if_neg h7, Bool.false_eq_true, if_false,
        decide_eq_true_eq, Nat.add_zero]
      constructor
      · intro h
        exact ⟨by omega, fun i hi => h i (by omega)⟩
      · intro h i hi
        exact h.2 i (by omega)
  · by_cases h7 : s.second < 7
    · simp only [search_eom_marker, if_pos h7, Bool.false_eq_true, false_iff, not_and]
      intro h
      omega
    · have e : s.second - 7 + 1 = s.second - 6 := by omega
      simp only [search_eom_marker, if_neg h7, if_true, decide_eq_true_eq, e]
      constructor
      · intro h
        exact ⟨by omega, fun i hi => h i (by omega)⟩
      · intro h i hi
        exact h.2 i (by omega)

/-- Claim C4 witness: the amended claim instantiated on the concrete frame:
corrupting bit 57 of the marker makes the plain test false. -/
theorem claim_C4_witness :
    search_eom_marker
      { nomState with bit_buffer_a := nomState.bit_buffer_a.set 57 none } false = false ∧
    search_eom_marker nomState false = true :=
  ⟨(claim_C4 nomState).2.2.2 57 (by decide) (by decide), (claim_C4 nomState).2.2.1⟩

/-! ## Claim C6 -/

theorem pairwise_no_rule_of_all_false (l : List (Option Bool))
    (h : ∀ b ∈ l, b = some false) :
    l.Pairwise (fun a b => ¬(a = some false ∧ b = some true)) := by
  induction l with
  | nil => exact List.Pairwise.nil
  | cons x rest ih =>
    refine List.Pairwise.cons ?_ (ih fun b hb => h b (List.mem_cons_of_mem _ hb))
    intro b hb hc
    have hb' := h b (List.mem_cons_of_mem _ hb)
    rw [hb'] at hc
    simp at hc

theorem unaryGo_after_false (l : List (Option Bool)) (sum : Int) :
    unaryGo l sum (some false) =
      if ∀ b ∈ l, b = some false then some sum else none := by
  induction l generalizing sum with
  | nil => simp [unaryGo]
  | cons x rest ih =>
    match x with
    | none => simp [unaryGo]
    | some true =>
      rw [unaryGo, if_pos ⟨rfl, rfl⟩]
      simp
    | some false =>
      have hstep : unaryGo (some false :: rest) sum (some false) =
          unaryGo rest sum (some false) := by
        rw [unaryGo, if_neg (by simp)]
        norm_num
      rw [hstep, ih]
      simp

theorem unaryGo_spec (l : List (Option Bool)) (sum : Int) (old : Option Bool)
    (hold : old ≠ some false) :
    unaryGo l sum old =
      if (∀ x ∈ l, x.isSome) ∧
          l.Pairwise (fun a b => ¬(a = some false ∧ b = some true)) then
        some (sum + l.count (some true))
      else none := by
  induction l generalizing sum old with
  | nil => simp [unaryGo]
  | cons x rest ih =>
    match x with
    | none =>
      rw [unaryGo, if_neg]
      simp
    | some true =>
      have hstep : unaryGo (some true :: rest) sum old =
          unaryGo rest (sum + 1) (some true) := by
        rw [unaryGo, if_neg (by simp [hold])]
        norm_num
      rw [hstep, ih (sum + 1) (some true) (by simp)]
      by_cases hA : ∀ x ∈ rest, x.isSome
      · by_cases hP : rest.Pairwise (fun a b => ¬(a = some false ∧ b = some true))
        · have hcond : (∀ x ∈ some true :: rest, x.isSome) ∧
              (some true :: rest).Pairwise (fun a b => ¬(a = some false ∧ b = some true)) := by
            refine ⟨?_, List.Pairwise.cons (by simp) hP⟩
            intro x hx
            rcases List.mem_cons.mp hx with h | h
            · simp [h]
            · exact hA x h
          rw [if_pos ⟨hA, hP⟩, if_pos hcond]
          have hcnt : (some true :: rest).count (some true) = rest.count (some true) + 1 := by
            simp [List.count_cons]
          rw [hcnt]
          congr 1
          push_cast
          ring
        · have hneg : ¬((∀ x ∈ some true :: rest, x.isSome) ∧
              (some true :: rest).Pairwise (fun a b => ¬(a = some false ∧ b = some true))) := by
            intro hc
            exact hP (List.pairwise_cons.mp hc.2).2
          rw [if_neg (fun hc => hP hc.2), if_neg hneg]
      · have hneg : ¬((∀ x ∈ some true :: rest, x.isSome) ∧
            (some true :: rest).Pairwise (fun a b => ¬(a = some false ∧ b = some true))) := by
          intro hc
          exact hA fun x hx => hc.1 x (List.mem_cons_of_mem _ hx)
        rw [if_neg (fun hc => hA hc.1), if_neg hneg]
    | some false =>
      have hstep : unaryGo (some false :: rest) sum old =
          unaryGo rest sum (some false) := by
        rw [unaryGo, if_neg (by simp)]
        norm_num
      rw [hstep, unaryGo_after_false]
      by_cases hall : ∀ b ∈ rest, b = some false
      · have hcond : (∀ x ∈ some false :: rest, x.isSome) ∧
            (some false :: rest).Pairwise (fun a b => ¬(a = some false ∧ b = some true)) := by
          constructor
          · intro x hx
            rcases List.mem_cons.mp hx with h | h
            · simp [h]
            · simp [hall x h]
          · exact List.Pairwise.cons (fun b hb hc => by simp [hall b hb] at hc)
              (pairwise_no_rule_of_all_false rest hall)
        rw [if_pos hall, if_pos hcond]
        have hz : rest.count (some true) = 0 := by
          rw [List.count_eq_zero]
          intro hmem
          have := hall _ hmem
          simp at this
        have hcnt : (some false :: rest).count (some true) = 0 := by
          simp [List.count_cons, hz]
        rw [hcnt]
        simp
      · have hneg : ¬((∀ x ∈ some false :: rest, x.isSome) ∧
            (some false :: rest).Pairwise (fun a b => ¬(a = some false ∧ b = some true))) := by
          intro hc
          apply hall
          intro b hb
          have hs := hc.1 b (List.mem_cons_of_mem _ hb)
          have hnt := (List.pairwise_cons.mp hc.2).1 b hb
          rcases b with _ | bb
          · simp at hs
          · cases bb
            · rfl
            · exact absurd ⟨rfl, rfl⟩ hnt
        rw [if_neg hall, if_neg hneg]

theorem get_unary_value_spec (buf : List (Option Bool)) (start stop : Nat) :
    get_unary_value buf start stop =
      unary_spec ((buf.drop start).take (stop + 1 - start)) := by
  rw [get_unary_value, unary_spec, unaryGo_spec _ 0 none (by simp)]
  simp

theorem decode_time_dut1 (s : MSFUtils) (strict amr ivr : Bool)
    (hb : s.second + 1 = get_minute_length s) :
    (decode_time s strict amr ivr).1.dut1 = dut1Of s := by
  simp [decode_time, hb]

/-- Claim C6: `get_unary_value` over a bit range returns the number of `1`
bits exactly when the range has no Unknown bit and no `1` bit follows a `0`
bit, and `none` otherwise (with the claim's concrete instances); and at the
minute boundary `decode_time` sets DUT1 to positive minus negative count
exactly when both unary counts decode and at most one of them is nonzero,
and to Unknown when either count fails to decode. -/
theorem claim_C6 :
    (∀ (buf : List (Option Bool)) (start stop : Nat),
      get_unary_value buf start stop =
        unary_spec ((buf.drop start).take (stop + 1 - start))) ∧
    get_unary_value [some true, some true, some false, some false] 0 3 = some 2 ∧
    get_unary_value [some false, some false, some true, some false] 0 3 = none ∧
    (∀ (buf : List (Option Bool)) (start stop : Nat),
      none ∈ (buf.drop start).take (stop + 1 - start) →
      get_unary_value buf start stop = none) ∧
    (∀ (s : MSFUtils) (strict amr ivr : Bool),
      s.second + 1 = get_minute_length s →
      (∀ dp dn : Int,
        get_unary_value s.bit_buffer_b 1 8 = some dp →
        get_unary_value s.bit_buffer_b 9 (if decodeOffsetOf s = -1 then 15 else 16) =
          some dn →
        (decode_time s strict amr ivr).1.dut1 =
          if dp = 0 ∨ dn = 0 then some (dp - dn) else none) ∧
      (get_unary_value s.bit_buffer_b 1 8 = none ∨
        get_unary_value s.bit_buffer_b 9 (if decodeOffsetOf s = -1 then 15 else 16) =
          none →
        (decode_time s strict amr ivr).1.dut1 = none)) := by
  refine ⟨get_unary_value_spec, by decide, by decide, ?_, ?_⟩
  · intro buf start stop hmem
    rw [get_unary_value_spec, unary_spec, if_neg]
    intro hc
    have := hc.1 none hmem
    simp at this
  · intro s strict amr ivr hb
    constructor
    · intro dp dn hdp hdn
      rw [decode_time_dut1 s strict amr ivr hb, dut1Of, decodeDut1, hdp, hdn]
      exact if_congr mul_eq_zero rfl rfl
    · intro hnone
      rw [decode_time_dut1 s strict amr ivr hb, dut1Of, decodeDut1]
      rcases hnone with h | h
      · rw [h]
      · rw [h]
        rcases get_unary_value s.bit_buffer_b 1 8 with _ | dp <;> rfl

/-- Claim C6 witness: the boundary-conditioned DUT1 clause evaluated on the
nominal test frame (positive count 0, negative count 2, DUT1 = −2). -/
theorem claim_C6_witness :
    (decode_time nomState false true true).1.dut1 =
      if (0 : Int) = 0 ∨ (2 : Int) = 0 then some ((0 : Int) - 2) else none :=
  (claim_C6.2.2.2.2 nomState false true true (by decide)).1 0 2 (by decide) (by decide)

/-! ## Claim C2 -/

/-- Claim C2 (counterexample): the claim says `decode_time` performs field
decoding only when the second counter equals the computed minute length.  On
the nominal frame at second counter 59 the computed minute length is 60 — the
counter does not equal it — yet the call writes the parities and pushes fields
to the accumulator. -/
theorem claim_C2_counterexample :
    nomState.second ≠ get_minute_length nomState ∧
    nomState.parity_1 = none ∧
    (decode_time nomState false true true).1.parity_1 = some true ∧
    (decode_time nomState false true true).2.any isFieldEvent = true := by decide

/-- Claim C2 (amended): `decode_time` performs field decoding (parity/DUT1
writes and accumulator pushes) exactly when the second counter plus one equals
the computed minute length; on every call the accumulator is asked to advance
its clock by one minute exactly when this is not the first minute, that
request coming directly after `clear_jumps` and before (independently of) the
boundary test; off the boundary the decoder state is left unchanged. -/
theorem claim_C2 (s : MSFUtils) (strict amr ivr : Bool) :
    ((decode_time s strict amr ivr).2.any isFieldEvent = true ↔
      s.second + 1 = get_minute_length s) ∧
    (AccEvent.addMinute ∈ (decode_time s strict amr ivr).2 ↔ s.first_minute = false) ∧
    (decode_time s strict amr ivr).2.head? = some AccEvent.clearJumps ∧
    (s.first_minute = false →
      (decode_time s strict amr ivr).2[1]? = some AccEvent.addMinute) ∧
    (s.second + 1 ≠ get_minute_length s → (decode_time s strict amr ivr).1 = s) := by
  by_cases hb : s.second + 1 = get_minute_length s <;>
    cases hfm : s.first_minute <;>
      simp [decode_time, hb, hfm, isFieldEvent]

/-- Claim C2 witness: the amended claim instantiated on the nominal frame with
the first-minute flag cleared. -/
theorem claim_C2_witness :
    (AccEvent.addMinute ∈
      (decode_time { nomState with first_minute := false } false true true).2 ↔
      ({ nomState with first_minute := false } : MSFUtils).first_minute = false) ∧
    (decode_time { nomState with first_minute := false } false true true).2[1]? =
      some AccEvent.addMinute :=
  ⟨(claim_C2 { nomState with first_minute := false } false true true).2.1,
   (claim_C2 { nomState with first_minute := false } false true true).2.2.2.1 (by decide)⟩

/-! ## Claim C5 -/

/-- Claim C5: at the minute boundary each calendar field is pushed with a
validity flag that in relaxed mode is true exactly when that field's own
parity group passed (`Some(true)`), and in strict mode is the single global
`strict_ok` gate — all four parities passed, DUT1 decoded, and the
end-of-minute marker present — applied uniformly; the day field's relaxed flag
requires the year, month/day and weekday parities together. -/
theorem claim_C5 (s : MSFUtils) (strict amr ivr : Bool)
    (hb : s.second + 1 = get_minute_length s) :
    yearFlag (decode_time s strict amr ivr).2 =
      some (if strict then strictOkOf s else parity1Of s == some true) ∧
    monthFlag (decode_time s strict amr ivr).2 =
      some (if strict then strictOkOf s else parity2Of s == some true) ∧
    weekdayFlag (decode_time s strict amr ivr).2 =
      some (if strict then strictOkOf s else parity3Of s == some true) ∧
    dayFlag (decode_time s strict amr ivr).2 =
      some (if strict then strictOkOf s
        else (parity1Of s == some true) && (parity2Of s == some true) &&
          (parity3Of s == some true)) ∧
    hourFlag (decode_time s strict amr ivr).2 =
      some (if strict then strictOkOf s else parity4Of s == some true) ∧
    minuteFlag (decode_time s strict amr ivr).2 =
      some (if strict then strictOkOf s else parity4Of s == some true) ∧
    strictOkOf s =
      ((parity1Of s == some true) && (parity2Of s == some true) &&
       (parity3Of s == some true) && (parity4Of s == some true) &&
       (dut1Of s).isSome && end_of_minute_marker_present s) := by
  cases hfm : s.first_minute <;>
    simp [decode_time, hb, hfm, yearFlag, monthFlag, weekdayFlag, dayFlag,
      hourFlag, minuteFlag, strictOkOf]

/-- Claim C5 witness: the relaxed-mode year flag on the nominal frame. -/
theorem claim_C5_witness :
    yearFlag (decode_time nomState false true true).2 =
      some (if false then strictOkOf nomState else parity1Of nomState == some true) :=
  (claim_C5 nomState false true true (by decide)).1

/-! ## Claim C10 -/

theorem handle_new_edge_first_minute (s : MSFUtils) (low : Bool) (t : Nat) :
    (handle_new_edge s low t).first_minute = s.first_minute := by
  simp only [handle_new_edge, write_pair]
  split_ifs <;> rfl

theorem decode_time_first_minute_mono (s : MSFUtils) (strict amr ivr : Bool)
    (h : s.first_minute = false) :
    (decode_time s strict amr ivr).1.first_minute = false := by
  by_cases hb : s.second + 1 = get_minute_length s <;> simp [decode_time, hb, h]

theorem applyOp_first_minute_mono (s : MSFUtils) (op : MSFOp)
    (h : s.first_minute = false) : (applyOp s op).first_minute = false := by
  cases op <;>
    simp [applyOp, set_current_bit_a, set_current_bit_b, force_new_minute,
      force_past_new_minute, set_spike_limit, increase_second,
      handle_new_edge_first_minute, decode_time_first_minute_mono, h] <;>
    split_ifs <;> simp [h]

/-- Claim C10: `first_minute` starts true at construction; a call to
`decode_time` on a state with the flag still set clears it exactly when the
call sits at the minute boundary, the configured policy holds (strict: the
global `strict_ok` gate; relaxed: DUT1 present) and the external accumulator
reports a self-consistent calendar (`is_valid`, an oracle input here); once
false, no sequence of decoder operations ever makes it true again. -/
theorem claim_C10 :
    MSFUtils.new.first_minute = true ∧
    (∀ (s : MSFUtils) (strict amr ivr : Bool), s.first_minute = true →
      ((decode_time s strict amr ivr).1.first_minute = false ↔
        s.second + 1 = get_minute_length s ∧
        (if strict then strictOkOf s else (dut1Of s).isSome) = true ∧ ivr = true)) ∧
    (∀ (s : MSFUtils) (ops : List MSFOp), s.first_minute = false →
      (List.foldl applyOp s ops).first_minute = false) := by
  refine ⟨rfl, ?_, ?_⟩
  · intro s strict amr ivr hfm
    by_cases hb : s.second + 1 = get_minute_length s
    · cases hcond : ((if strict then strictOkOf s else (dut1Of s).isSome) && ivr) <;>
        simp_all [decode_time, hb, hfm, Bool.and_eq_true]
    · simp [decode_time, hb, hfm]
  · intro s ops h
    induction ops generalizing s with
    | nil => simpa using h
    | cons op rest ih => exact ih _ (applyOp_first_minute_mono s op h)

/-- Claim C10 witness: the clearing condition evaluated on the nominal frame,
and persistence of the cleared flag across a concrete operation. -/
theorem claim_C10_witness :
    ((decode_time nomState false true true).1.first_minute = false ↔
      nomState.second + 1 = get_minute_length nomState ∧
      (if false then strictOkOf nomState else (dut1Of nomState).isSome) = true ∧
      true = true) ∧
    (List.foldl applyOp { nomState with first_minute := false }
      [MSFOp.increaseSecond]).first_minute = false :=
  ⟨claim_C10.2.1 nomState false true true (by decide),
   claim_C10.2.2 { nomState with first_minute := false } [MSFOp.increaseSecond] (by decide)⟩

/-! ## Claim C1 -/

/-- Claim C1: for a falling edge whose interval `Δ` since the accepted
reference instant is at least the spike limit, the stored bit pair of the
current second is: `(0,1)` when `Δ < ACTIVE_0_LIMIT` and the previous interval
was a short active one (`0 < old_Δ < ACTIVE_0_LIMIT`); `(0,0)` when
`Δ < ACTIVE_0_LIMIT` and `old_Δ` exceeds the normal passive gap bound
`1000000 − MINUTE_LIMIT`; left as it was (so still Unknown if it was Unknown)
when `Δ < ACTIVE_0_LIMIT` with neither lead-in; `(1,0)`, `(1,1)` for the two
higher bands with `old_Δ > 1000000 − ACTIVE_AB_LIMIT`; for
`ACTIVE_AB_LIMIT ≤ Δ < MINUTE_LIMIT` under the same precondition the
begin-of-minute marker is signalled, the second counter is forced to 0 and
second 0's pair becomes `(1,1)`; in every other case both bits become
Unknown (active runaway). -/
theorem claim_C1 (s : MSFUtils) (t : Nat)
    (hfe : s.before_first_edge = false)
    (hsp : s.spike_limit ≤ time_diff s.t0 t)
    (hla : s.bit_buffer_a.length = BIT_BUFFER_SIZE)
    (hlb : s.bit_buffer_b.length = BIT_BUFFER_SIZE)
    (hsec : s.second < BIT_BUFFER_SIZE) :
    (time_diff s.t0 t < ACTIVE_0_LIMIT → 0 < s.old_t_diff →
      s.old_t_diff < ACTIVE_0_LIMIT →
      pairAt (handle_new_edge s true t) s.second = (some false, some true)) ∧
    (time_diff s.t0 t < ACTIVE_0_LIMIT → 1000000 - MINUTE_LIMIT < s.old_t_diff →
      pairAt (handle_new_edge s true t) s.second = (some false, some false)) ∧
    (time_diff s.t0 t < ACTIVE_0_LIMIT →
      ¬(0 < s.old_t_diff ∧ s.old_t_diff < ACTIVE_0_LIMIT) →
      ¬(1000000 - MINUTE_LIMIT < s.old_t_diff) →
      pairAt (handle_new_edge s true t) s.second = pairAt s s.second) ∧
    (ACTIVE_0_LIMIT ≤ time_diff s.t0 t → time_diff s.t0 t < ACTIVE_A_LIMIT →
      1000000 - ACTIVE_AB_LIMIT < s.old_t_diff →
      pairAt (handle_new_edge s true t) s.second = (some true, some false)) ∧
    (ACTIVE_A_LIMIT ≤ time_diff s.t0 t → time_diff s.t0 t < ACTIVE_AB_LIMIT →
      1000000 - ACTIVE_AB_LIMIT < s.old_t_diff →
      pairAt (handle_new_edge s true t) s.second = (some true, some true)) ∧
    (ACTIVE_AB_LIMIT ≤ time_diff s.t0 t → time_diff s.t0 t < MINUTE_LIMIT →
      1000000 - ACTIVE_AB_LIMIT < s.old_t_diff →
      (handle_new_edge s true t).past_new_minute = true ∧
      (handle_new_edge s true t).second = 0 ∧
      pairAt (handle_new_edge s true t) 0 = (some true, some true)) ∧
    (ACTIVE_0_LIMIT ≤ time_diff s.t0 t →
      ¬(time_diff s.t0 t < MINUTE_LIMIT ∧ 1000000 - ACTIVE_AB_LIMIT < s.old_t_diff) →
      pairAt (handle_new_edge s true t) s.second = (none, none)) := by
  have hfe' : ¬(s.before_first_edge = true) := by simp [hfe]
  have hsp' : ¬(time_diff s.t0 t < s.spike_limit) := Nat.not_lt.mpr hsp
  have hia : s.second < s.bit_buffer_a.length := by rw [hla]; exact hsec
  have hib : s.second < s.bit_buffer_b.length := by rw [hlb]; exact hsec
  have h0a : 0 < s.bit_buffer_a.length := by rw [hla]; norm_num [BIT_BUFFER_SIZE]
  have h0b : 0 < s.bit_buffer_b.length := by rw [hlb]; norm_num [BIT_BUFFER_SIZE]
  refine ⟨?_, ?_, ?_, ?_, ?_, ?_, ?_⟩
  · intro h1 h2 h3
    simp only [handle_new_edge]
    rw [if_neg hfe', if_neg hsp', if_pos (by trivial), if_pos h1, if_pos ⟨h2, h3⟩]
    simp [pairAt, write_pair, List.getElem?_set_eq_of_lt _ hia,
      List.getElem?_set_eq_of_lt _ hib]
  · intro h1 h2
    have hno : ¬(0 < s.old_t_diff ∧ s.old_t_diff < ACTIVE_0_LIMIT) := by
      simp only [ACTIVE_0_LIMIT, MINUTE_LIMIT] at h2 ⊢
      omega
    simp only [handle_new_edge]
    rw [if_neg hfe', if_neg hsp', if_pos (by trivial), if_pos h1, if_neg hno, if_pos h2]
    simp [pairAt, write_pair, List.getElem?_set_eq_of_lt _ hia,
      List.getElem?_set_eq_of_lt _ hib]
  · intro h1 h2 h3
    simp only [handle_new_edge]
    rw [if_neg hfe', if_neg hsp', if_pos (by trivial), if_pos h1, if_neg h2, if_neg h3]
    simp [pairAt]
  · intro h1 h2 h3
    simp only [handle_new_edge]
    rw [if_neg hfe', if_neg hsp', if_pos (by trivial), if_neg (Nat.not_lt.mpr h1),
      if_pos ⟨h2, h3⟩]
    simp [pairAt, write_pair, List.getElem?_set_eq_of_lt _ hia,
      List.getElem?_set_eq_of_lt _ hib]
  · intro h1 h2 h3
    have hn1 : ¬(time_diff s.t0 t < ACTIVE_0_LIMIT) := by
      simp only [ACTIVE_0_LIMIT, ACTIVE_A_LIMIT] at h1 ⊢
      omega
    have hn2 : ¬(time_diff s.t0 t < ACTIVE_A_LIMIT ∧
        1000000 - ACTIVE_AB_LIMIT < s.old_t_diff) := by
      intro hc
      exact absurd hc.1 (Nat.not_lt.mpr h1)
    simp only [handle_new_edge]
    rw [if_neg hfe', if_neg hsp', if_pos (by trivial), if_neg hn1, if_neg hn2, if_pos ⟨h2, h3⟩]
    simp [pairAt, write_pair, List.getElem?_set_eq_of_lt _ hia,
      List.getElem?_set_eq_of_lt _ hib]
  · intro h1 h2 h3
    have hn1 : ¬(time_diff s.t0 t < ACTIVE_0_LIMIT) := by
      simp only [ACTIVE_0_LIMIT, ACTIVE_AB_LIMIT] at h1 ⊢
      omega
    have hn2 : ¬(time_diff s.t0 t < ACTIVE_A_LIMIT ∧
        1000000 - ACTIVE_AB_LIMIT < s.old_t_diff) := by
      intro hc
      have := hc.1
      simp only [ACTIVE_A_LIMIT, ACTIVE_AB_LIMIT] at this h1
      omega
    have hn3 : ¬(time_diff s.t0 t < ACTIVE_AB_LIMIT ∧
        1000000 - ACTIVE_AB_LIMIT < s.old_t_diff) := by
      intro hc
      exact absurd hc.1 (Nat.not_lt.mpr h1)
    simp only [handle_new_edge]
    rw [if_neg hfe', if_neg hsp', if_pos (by trivial), if_neg hn1, if_neg hn2, if_neg hn3,
      if_pos ⟨h2, h3⟩]
    simp [pairAt, write_pair, List.getElem?_set_eq_of_lt _ h0a,
      List.getElem?_set_eq_of_lt _ h0b]
  · intro h1 h2
    have hn1 : ¬(time_diff s.t0 t < ACTIVE_0_LIMIT) := Nat.not_lt.mpr h1
    have hn2 : ¬(time_diff s.t0 t < ACTIVE_A_LIMIT ∧
        1000000 - ACTIVE_AB_LIMIT < s.old_t_diff) := by
      intro hc
      apply h2
      refine ⟨?_, hc.2⟩
      have := hc.1
      simp only [ACTIVE_A_LIMIT, MINUTE_LIMIT] at this ⊢
      omega
    have hn3 : ¬(time_diff s.t0 t < ACTIVE_AB_LIMIT ∧
        1000000 - ACTIVE_AB_LIMIT < s.old_t_diff) := by
      intro hc
      apply h2
      refine ⟨?_, hc.2⟩
      have := hc.1
      simp only [ACTIVE_AB_LIMIT, MINUTE_LIMIT] at this ⊢
      omega
    have hn4 : ¬(time_diff s.t0 t < MINUTE_LIMIT ∧
        1000000 - ACTIVE_AB_LIMIT < s.old_t_diff) := h2
    simp only [handle_new_edge]
    rw [if_neg hfe', if_neg hsp', if_pos (by trivial), if_neg hn1, if_neg hn2, if_neg hn3,
      if_neg hn4]
    simp [pairAt, write_pair, List.getElem?_set_eq_of_lt _ hia,
      List.getElem?_set_eq_of_lt _ hib]

/-- Claim C1 witness: the `(1,1)` band evaluated on a concrete edge
(`Δ = 285602` after a passive interval of 818743, the repository's own test
data for a `(1,1)` bit). -/
theorem claim_C1_witness :
    pairAt (handle_new_edge c1state true 416194383) c1state.second =
      (some true, some true) :=
  (claim_C1 c1state 416194383 (by decide) (by decide) (by decide) (by decide)
      (by decide)).2.2.2.2.1 (by decide) (by decide) (by decide)

/-! ## Claim C7 -/

theorem bcdGo_congr (b1 b2 : List (Option Bool)) (s1 s2 : Nat) (n : Nat)
    (h : ∀ j, j < n → b1.getD (s1 - j) none = b2.getD (s2 - j) none) :
    bcdGo b1 s1 n = bcdGo b2 s2 n := by
  induction n with
  | zero => rfl
  | succ m ih =>
    rw [bcdGo, bcdGo, ih (fun j hj => h j (by omega)), h m (by omega)]

theorem pushedValues_decode (s : MSFUtils) (strict amr ivr : Bool)
    (hb : s.second + 1 = get_minute_length s) :
    pushedValues (decode_time s strict amr ivr).2 =
      [yearValueOf s, monthValueOf s, weekdayValueOf s, dayValueOf s,
       hourValueOf s, minuteValueOf s] := by
  cases hfm : s.first_minute <;> simp [decode_time, hb, hfm, pushedValues]

/-- Claim C7: for a nominal 60-bit frame carrying the end-of-minute marker at
positions 52..59, deleting one bit at a position at most 16 (negative leap
second, decoded at second counter 58) or inserting one Unknown bit at a
position at most 17 (positive leap second, decoded at second counter 60)
leaves the decoded year/month/weekday/day/hour/minute values pushed by
`decode_time` exactly equal to the nominal decoding, while `get_minute_length`
reports 59 resp. 61; and in the negative-leap case DUT1's negative-count range
stops at bit 15, dropping nominal bit 16, instead of merely shifting. -/
theorem claim_C7 (s0 sN sP : MSFUtils) (k kp : Nat)
    (hk : k ≤ 16) (hkp : kp ≤ 17)
    (h0 : s0.second = 59) (hN : sN.second = 58) (hP : sP.second = 60)
    (hNlow : ∀ i, i < k → sN.bit_buffer_a.getD i none = s0.bit_buffer_a.getD i none)
    (hNshift : ∀ i, i < 59 → k ≤ i →
      sN.bit_buffer_a.getD i none = s0.bit_buffer_a.getD (i + 1) none)
    (hPlow : ∀ i, i < kp → sP.bit_buffer_a.getD i none = s0.bit_buffer_a.getD i none)
    (hPins : sP.bit_buffer_a.getD kp none = none)
    (hPshift : ∀ i, i < 61 → kp < i →
      sP.bit_buffer_a.getD i none = s0.bit_buffer_a.getD (i - 1) none)
    (hmark : ∀ i, i < 8 →
      s0.bit_buffer_a.getD (52 + i) none = some (MARKER.getD i false))
    (strict amr ivr : Bool) :
    get_minute_length s0 = 60 ∧ get_minute_length sN = 59 ∧ get_minute_length sP = 61 ∧
    pushedValues (decode_time sN strict amr ivr).2 =
      pushedValues (decode_time s0 strict amr ivr).2 ∧
    pushedValues (decode_time sP strict amr ivr).2 =
      pushedValues (decode_time s0 strict amr ivr).2 ∧
    (decode_time s0 strict amr ivr).1.dut1 = decodeDut1 s0.bit_buffer_b 16 ∧
    (decode_time sN strict amr ivr).1.dut1 = decodeDut1 sN.bit_buffer_b 15 := by
  have hm0 : search_eom_marker s0 false = true := by
    simp only [search_eom_marker, h0]
    rw [if_neg (by norm_num), decide_eq_true_eq]
    intro i hi
    exact hmark i (by omega)
  have hmN : search_eom_marker sN false = true := by
    simp only [search_eom_marker, hN]
    rw [if_neg (by norm_num), decide_eq_true_eq]
    intro i hi
    have h1 := hNshift (51 + i) (by omega) (by omega)
    rw [show 51 + i + 1 = 52 + i from by omega] at h1
    exact h1.trans (hmark i (by omega))
  have hmP : search_eom_marker sP false = true := by
    simp only [search_eom_marker, hP]
    rw [if_neg (by norm_num), decide_eq_true_eq]
    intro i hi
    have h1 := hPshift (53 + i) (by omega) (by omega)
    rw [show 53 + i - 1 = 52 + i from by omega] at h1
    exact h1.trans (hmark i (by omega))
  have hl0 : get_minute_length s0 = 60 := by
    simp [get_minute_length, h0, hm0]
  have hlN : get_minute_length sN = 59 := by
    simp [get_minute_length, hN, hmN]
  have hlP : get_minute_length sP = 61 := by
    simp [get_minute_length, hP, hmP]
  have hb0 : s0.second + 1 = get_minute_length s0 := by omega
  have hbN : sN.second + 1 = get_minute_length sN := by omega
  have hbP : sP.second + 1 = get_minute_length sP := by omega
  have hoff0 : decodeOffsetOf s0 = 0 := by simp [decodeOffsetOf, hl0]
  have hoffN : decodeOffsetOf sN = -1 := by simp [decodeOffsetOf, hlN]
  have hoffP : decodeOffsetOf sP = 1 := by simp [decodeOffsetOf, hlP]
  have field_eqN : ∀ hi lo : Nat, 17 ≤ lo → hi ≤ 51 → lo ≤ hi →
      get_bcd_value sN.bit_buffer_a (hi - 1) (lo - 1) =
        get_bcd_value s0.bit_buffer_a hi lo := by
    intro hi lo hlo hhi hle
    unfold get_bcd_value
    rw [show hi - 1 + 1 - (lo - 1) = hi + 1 - lo from by omega]
    apply bcdGo_congr
    intro j hj
    have h1 := hNshift (hi - 1 - j) (by omega) (by omega)
    rw [h1, show hi - 1 - j + 1 = hi - j from by omega]
  have field_eqP : ∀ hi lo : Nat, 17 ≤ lo → hi ≤ 51 → lo ≤ hi →
      get_bcd_value sP.bit_buffer_a (hi + 1) (lo + 1) =
        get_bcd_value s0.bit_buffer_a hi lo := by
    intro hi lo hlo hhi hle
    unfold get_bcd_value
    rw [show hi + 1 + 1 - (lo + 1) = hi + 1 - lo from by omega]
    apply bcdGo_congr
    intro j hj
    have h1 := hPshift (hi + 1 - j) (by omega) (by omega)
    rw [h1, show hi + 1 - j - 1 = hi - j from by omega]
  refine ⟨hl0, hlN, hlP, ?_, ?_, ?_, ?_⟩
  · rw [pushedValues_decode sN strict amr ivr hbN,
      pushedValues_decode s0 strict amr ivr hb0]
    simp only [yearValueOf, monthValueOf, weekdayValueOf, dayValueOf, hourValueOf,
      minuteValueOf, hoffN, hoff0]
    have e1 : get_bcd_value sN.bit_buffer_a (fpos (-1) 24) (fpos (-1) 17) =
        get_bcd_value s0.bit_buffer_a (fpos 0 24) (fpos 0 17) :=
      field_eqN 24 17 (by norm_num) (by norm_num) (by norm_num)
    have e2 : get_bcd_value sN.bit_buffer_a (fpos (-1) 29) (fpos (-1) 25) =
        get_bcd_value s0.bit_buffer_a (fpos 0 29) (fpos 0 25) :=
      field_eqN 29 25 (by norm_num) (by norm_num) (by norm_num)
    have e3 : get_bcd_value sN.bit_buffer_a (fpos (-1) 38) (fpos (-1) 36) =
        get_bcd_value s0.bit_buffer_a (fpos 0 38) (fpos 0 36) :=
      field_eqN 38 36 (by norm_num) (by norm_num) (by norm_num)
    have e4 : get_bcd_value sN.bit_buffer_a (fpos (-1) 35) (fpos (-1) 30) =
        get_bcd_value s0.bit_buffer_a (fpos 0 35) (fpos 0 30) :=
      field_eqN 35 30 (by norm_num) (by norm_num) (by norm_num)
    have e5 : get_bcd_value sN.bit_buffer_a (fpos (-1) 44) (fpos (-1) 39) =
        get_bcd_value s0.bit_buffer_a (fpos 0 44) (fpos 0 39) :=
      field_eqN 44 39 (by norm_num) (by norm_num) (by norm_num)
    have e6 : get_bcd_value sN.bit_buffer_a (fpos (-1) 51) (fpos (-1) 45) =
        get_bcd_value s0.bit_buffer_a (fpos 0 51) (fpos 0 45) :=
      field_eqN 51 45 (by norm_num) (by norm_num) (by norm_num)
    rw [e1, e2, e3, e4, e5, e6]
  · rw [pushedValues_decode sP strict amr ivr hbP,
      pushedValues_decode s0 strict amr ivr hb0]
    simp only [yearValueOf, monthValueOf, weekdayValueOf, dayValueOf, hourValueOf,
      minuteValueOf, hoffP, hoff0]
    have e1 : get_bcd_value sP.bit_buffer_a (fpos 1 24) (fpos 1 17) =
        get_bcd_value s0.bit_buffer_a (fpos 0 24) (fpos 0 17) :=
      field_eqP 24 17 (by norm_num) (by norm_num) (by norm_num)
    have e2 : get_bcd_value sP.bit_buffer_a (fpos 1 29) (fpos 1 25) =
        get_bcd_value s0.bit_buffer_a (fpos 0 29) (fpos 0 25) :=
      field_eqP 29 25 (by norm_num) (by norm_num) (by norm_num)
    have e3 : get_bcd_value sP.bit_buffer_a (fpos 1 38) (fpos 1 36) =
        get_bcd_value s0.bit_buffer_a (fpos 0 38) (fpos 0 36) :=
      field_eqP 38 36 (by norm_num) (by norm_num) (by norm_num)
    have e4 : get_bcd_value sP.bit_buffer_a (fpos 1 35) (fpos 1 30) =
        get_bcd_value s0.bit_buffer_a (fpos 0 35) (fpos 0 30) :=
      field_eqP 35 30 (by norm_num) (by norm_num) (by norm_num)
    have e5 : get_bcd_value sP.bit_buffer_a (fpos 1 44) (fpos 1 39) =
        get_bcd_value s0.bit_buffer_a (fpos 0 44) (fpos 0 39) :=
      field_eqP 44 39 (by norm_num) (by norm_num) (by norm_num)
    have e6 : get_bcd_value sP.bit_buffer_a (fpos 1 51) (fpos 1 45) =
        get_bcd_value s0.bit_buffer_a (fpos 0 51) (fpos 0 45) :=
      field_eqP 51 45 (by norm_num) (by norm_num) (by norm_num)
    rw [e1, e2, e3, e4, e5, e6]
  · rw [decode_time_dut1 s0 strict amr ivr hb0]
    simp [dut1Of, hoff0]
  · rw [decode_time_dut1 sN strict amr ivr hbN]
    simp [dut1Of, hoffN]

/-- Claim C7 witness: the nominal test frame against its concrete negative-
and positive-leap-second variants. -/
theorem claim_C7_witness :
    get_minute_length c7neg = 59 ∧ get_minute_length c7pos = 61 ∧
    pushedValues (decode_time c7neg false true true).2 =
      pushedValues (decode_time nomState false true true).2 ∧
    pushedValues (decode_time c7pos false true true).2 =
      pushedValues (decode_time nomState false true true).2 := by
  have h := claim_C7 nomState c7neg c7pos 16 17 (by decide) (by decide) (by decide)
    (by decide) (by decide) (by decide) (by decide) (by decide) (by decide) (by decide)
    (by decide) false true true
  exact ⟨h.2.1, h.2.2.1, h.2.2.2.1, h.2.2.2.2.1⟩
